import Mathlib

/-!
Verification of the operation-dispatch and upstream-adaptation layer of an
MCP server bridging tool calls to an Azure DevOps instance (main.go).

Shallow embedding conventions:
* Go pointer fields (`*string`, `*Repository`, ...) become `Option` fields;
  a `nil`-pointer dereference at runtime is modelled by an explicit `panic`
  constructor in the outcome type of the operation.
* The upstream service (code-search API, repository listing, file fetch) is
  an explicit parameter: an oracle function handed to the operation, so a
  theorem quantifying over all oracles captures "no upstream call is made".
* Go's `(value, error)` returns become outcome types carrying the returned
  value together with the returned error (`Option`-valued), mirroring that
  Go returns both components at once.
-/

namespace AzDevOpsMcp

/-- A Go `interface{}` value as found in the tool-call argument map.
Only the shapes relevant to the handlers are distinguished: a string
satisfies the `.(string)` type assertion, everything else fails it. -/
inductive GoValue where
  | str (s : String)
  | num (n : Int)
  | boolean (b : Bool)
  | null
deriving DecidableEq

/-- Model of Go's `m[key].(string)` two-valued type assertion applied to the
result of a map lookup: a missing key yields the nil interface value, and
the assertion succeeds exactly on a string value. -/
def asString : Option GoValue → Option String
  | some (GoValue.str s) => some s
  | _ => none

/-- The tool-call argument mapping `request.Params.Arguments` (a Go
`map[string]interface{}`), modelled as an association list with the usual
first-binding-wins lookup. -/
def argLookup (args : List (String × GoValue)) (key : String) : Option GoValue :=
  List.lookup key args

/-- The `search.CodeResult.Repository` field: the repository descriptor attached to a
search hit; its `Name` field is a Go `*string`. -/
structure RepoRef where
  name : Option String
deriving DecidableEq

/-- The `search.CodeResult.Project` field: the project descriptor attached to a search
hit; its `Name` field is a Go `*string`. -/
structure ProjRef where
  name : Option String
deriving DecidableEq

/-- One raw upstream search hit (`search.CodeResult`): every field the code
touches is a Go pointer, hence `Option`. -/
structure CodeResult where
  repository : Option RepoRef
  path : Option String
  fileName : Option String
  project : Option ProjRef
deriving DecidableEq

/-- The raw upstream search response (`search.CodeSearchResponse`); its
`Results` field is a pointer to a slice. -/
structure CodeSearchResponse where
  results : Option (List CodeResult)
deriving DecidableEq

/-- One normalized search record, the `map[string]interface{}` with keys
repository/path/fileName/project built in `searchRepository`. -/
structure SearchRecord where
  repository : String
  path : String
  fileName : String
  project : String
deriving DecidableEq

/-- The upstream search request (`search.CodeSearchRequest`) as the code
populates it: search text, the filter map (as an association list), the
snippet-inclusion flag, and the result cap `Top`. -/
structure CodeSearchRequest where
  searchText : String
  filters : List (String × List String)
  includeSnippet : Bool
  top : Int
deriving DecidableEq

/-- The request construction of `searchRepository` (main.go lines 93-106):
the filter map always carries `Project`, carries `Repository` exactly when
`repoName` is non-empty, `IncludeSnippet` is true and `Top` is 1000. -/
def buildSearchRequest (project query repoName : String) : CodeSearchRequest :=
  { searchText := query
    filters :=
      ("Project", [project]) ::
        (if repoName = "" then [] else [("Repository", [repoName])])
    includeSnippet := true
    top := 1000 }

/-- Outcome of mapping one upstream hit inside the result loop of
`searchRepository` (main.go lines 120-130): the hit is skipped by the
completeness guard (`continue`), or a runtime nil-pointer dereference
occurs, or a record is produced. -/
inductive HitOutcome where
  | panic
  | skipped
  | record (r : SearchRecord)
deriving DecidableEq

/-- The body of the result loop: `continue` when `Repository`, `Path` or
`FileName` is nil; otherwise build the record by dereferencing
`Repository.Name`, `Path`, `FileName` and `Project.Name` — the last two
dereferences (`Repository.Name`, `Project`/`Project.Name`) are unguarded,
so a nil there is a runtime panic. -/
def processHit (h : CodeResult) : HitOutcome :=
  match h.repository with
  | none => .skipped
  | some repo =>
    match h.path with
    | none => .skipped
    | some p =>
      match h.fileName with
      | none => .skipped
      | some f =>
        match repo.name with
        | none => .panic
        | some rname =>
          match h.project with
          | none => .panic
          | some proj =>
            match proj.name with
            | none => .panic
            | some pname => .record ⟨rname, p, f, pname⟩

/-- The whole result loop over the upstream hit slice, in order: a panic on
any hit aborts the call, a skipped hit contributes nothing, a record is
appended. `Except.error ()` stands for the runtime panic. -/
def processAll : List CodeResult → Except Unit (List SearchRecord)
  | [] => .ok []
  | h :: t =>
    match processHit h with
    | .panic => .error ()
    | .skipped => processAll t
    | .record r =>
      match processAll t with
      | .error e => .error e
      | .ok rs => .ok (r :: rs)

/-- Outcome of `searchRepository` as a whole: runtime panic, error return
(Go `nil, err`), or the record list (Go `results, nil`). -/
inductive SearchOutcome where
  | panic
  | err (msg : String)
  | ok (records : List SearchRecord)
deriving DecidableEq

/-- The function `searchRepository` (main.go lines 91-134). `fetch` is the upstream
search API (`searchClient.FetchCodeSearchResults`); it returns either a Go
error (as a message) or a possibly-nil response pointer. A nil response or
nil `Results` slice yields the initialized empty record list. -/
def searchRepository
    (fetch : CodeSearchRequest → Except String (Option CodeSearchResponse))
    (project query repoName : String) : SearchOutcome :=
  match fetch (buildSearchRequest project query repoName) with
  | .error e => .err ("error searching code: " ++ e)
  | .ok none => .ok []
  | .ok (some resp) =>
    match resp.results with
    | none => .ok []
    | some hits =>
      match processAll hits with
      | .error _ => .panic
      | .ok records => .ok records

/-- A repository from the upstream listing (`git.GitRepository`): `Name` is
a Go `*string` and `Id` a `*uuid.UUID`; we carry the UUID already rendered
to the string `Id.String()` produces. -/
structure GitRepository where
  name : Option String
  id : Option String
deriving DecidableEq

/-- The fetched item (`git.GitItem`): the code only touches its `Content`
field, a Go `*string`. -/
structure GitItem where
  content : Option String
deriving DecidableEq

/-- The upstream fetch arguments (`git.GetItemArgs`) as the code populates
them (main.go lines 160-165): repository id, project, path, the
include-content flag, and the branch/ref selector (`VersionDescriptor`),
which the code never sets — kept here to show it is always absent. -/
structure GetItemArgs where
  repositoryId : String
  project : String
  path : String
  includeContent : Bool
  versionDescriptor : Option String
deriving DecidableEq

/-- Model of Go's `strings.EqualFold` used for repository-name matching:
case-insensitive equality, rendered as character-wise case folding over
the underlying character lists. -/
def eqFold (a b : String) : Bool :=
  a.data.map Char.toLower == b.data.map Char.toLower

/-- The repository-resolution scan of `getFileContent` (main.go lines
145-151): walk the listing in order, dereference `repo.Name` (a nil name
is a runtime panic, `Except.error ()`), and stop at the first
case-insensitive match; `Option.none` when the whole list has no match. -/
def findRepo (repos : List GitRepository) (repoName : String) :
    Except Unit (Option GitRepository) :=
  match repos with
  | [] => .ok none
  | r :: t =>
    match r.name with
    | none => .error ()
    | some n =>
      if eqFold n repoName then .ok (some r) else findRepo t repoName

/-- The error value `getFileContent` returns: an upstream error passed
through unchanged, or the not-found error it fabricates itself. -/
inductive ReadError where
  | upstream (msg : String)
  | notFound (msg : String)
deriving DecidableEq

/-- The message of a read error, as `err.Error()` would render it. -/
def ReadError.message : ReadError → String
  | .upstream m => m
  | .notFound m => m

/-- Outcome of `getFileContent` as a whole: runtime panic, or the Go
`(string, error)` pair it returns. -/
inductive ReadOutcome where
  | panic
  | ret (content : String) (err : Option ReadError)
deriving DecidableEq

/-- The tail of `getFileContent` after the `GetItem` call (main.go lines
166-175): an upstream error is passed through with empty content; a nil
`Content` yields the empty string with no error; otherwise the content. -/
def itemPhase (res : Except String GitItem) : ReadOutcome :=
  match res with
  | .error e => .ret "" (some (.upstream e))
  | .ok item =>
    match item.content with
    | none => .ret "" none
    | some content => .ret content none

/-- The function `getFileContent` (main.go lines 136-176). `listRepos` is the result of
the upstream `GetRepositories` call for the configured project; `getItem`
is the upstream `GetItem` API. A nil repository name in the scan, or a nil
`Id` on the resolved repository, is a runtime panic. -/
def getFileContent
    (listRepos : Except String (List GitRepository))
    (getItem : GetItemArgs → Except String GitItem)
    (project repoName path : String) : ReadOutcome :=
  match listRepos with
  | .error e => .ret "" (some (.upstream e))
  | .ok repos =>
    match findRepo repos repoName with
    | .error _ => .panic
    | .ok none => .ret "" (some (.notFound ("repository not found: " ++ repoName)))
    | .ok (some repo) =>
      match repo.id with
      | none => .panic
      | some repoID =>
        itemPhase (getItem
          { repositoryId := repoID
            project := project
            path := path
            includeContent := true
            versionDescriptor := none })

/-- One hexadecimal digit, lower case, for the `\u00XX` escapes below. -/
def hexDigit (n : Nat) : Char :=
  if n < 10 then Char.ofNat (48 + n) else Char.ofNat (87 + n)

/-- Go `encoding/json` escaping of one character inside a string literal:
quote, backslash, the named control escapes, `\u00XX` for the remaining
control characters, and the default HTML escaping of angle brackets and
ampersand. -/
def jsonEscapeChar (c : Char) : String :=
  if c = '"' then "\\\""
  else if c = '\\' then "\\\\"
  else if c = '\n' then "\\n"
  else if c = '\r' then "\\r"
  else if c = '\t' then "\\t"
  else if c.toNat < 32 then
    String.mk ['\\', 'u', '0', '0', hexDigit (c.toNat / 16), hexDigit (c.toNat % 16)]
  else if c = '<' then "\\u003c"
  else if c = '>' then "\\u003e"
  else if c = '&' then "\\u0026"
  else String.singleton c

/-- Go `encoding/json` rendering of a string literal. -/
def jsonString (s : String) : String :=
  "\"" ++ String.join (s.toList.map jsonEscapeChar) ++ "\""

/-- Go `json.Marshal` of one record map: `map[string]interface{}` keys are
emitted in sorted order (fileName, path, project, repository). -/
def recordJson (r : SearchRecord) : String :=
  "\x7b\"fileName\":" ++ jsonString r.fileName ++
    ",\"path\":" ++ jsonString r.path ++
    ",\"project\":" ++ jsonString r.project ++
    ",\"repository\":" ++ jsonString r.repository ++ "\x7d"

/-- Go `json.Marshal` of the (non-nil) record slice: always a JSON array,
`[]` when the slice is empty. -/
def jsonMarshalRecords (records : List SearchRecord) : String :=
  "[" ++ String.intercalate "," (records.map recordJson) ++ "]"

/-- Outcome of a tool handler: runtime panic, the Go `nil, err` error
return (surfaced to the protocol as a failed call), or a text result. -/
inductive ToolOutcome where
  | panic
  | err (msg : String)
  | ok (text : String)
deriving DecidableEq

/-- The tail of the search handler after `searchRepository` returns
(main.go lines 214-226): wrap an error, otherwise marshal the records. -/
def encodeSearchOutcome : SearchOutcome → ToolOutcome
  | .panic => .panic
  | .err e => .err ("error searching repositories: " ++ e)
  | .ok records => .ok (jsonMarshalRecords records)

/-- The `search` tool handler (main.go lines 205-227): `query` must pass
the string type assertion or the call fails with a validation error before
any upstream call; `repo` falls back to the empty string when absent or
not a string. -/
def searchHandler
    (fetch : CodeSearchRequest → Except String (Option CodeSearchResponse))
    (project : String) (args : List (String × GoValue)) : ToolOutcome :=
  match asString (argLookup args "query") with
  | none => .err "query must be a string"
  | some query =>
    let repoName := (asString (argLookup args "repo")).getD ""
    encodeSearchOutcome (searchRepository fetch project query repoName)

/-- The tail of the read handler after `getFileContent` returns (main.go
lines 255-261): wrap an error, otherwise return the raw content text. -/
def encodeReadOutcome : ReadOutcome → ToolOutcome
  | .panic => .panic
  | .ret _ (some e) => .err ("error getting file content: " ++ e.message)
  | .ret content none => .ok content

/-- The `read` tool handler (main.go lines 242-262): `repository` and then
`path` must each pass the string type assertion, or the call fails with a
validation error before any upstream call. -/
def readHandler
    (listRepos : Except String (List GitRepository))
    (getItem : GetItemArgs → Except String GitItem)
    (project : String) (args : List (String × GoValue)) : ToolOutcome :=
  match asString (argLookup args "repository") with
  | none => .err "repository must be a string"
  | some repo =>
    match asString (argLookup args "path") with
    | none => .err "path must be a string"
    | some path =>
      encodeReadOutcome (getFileContent listRepos getItem project repo path)

/-! ### Helper lemmas about the search result loop -/

/-- A record is built from a hit exactly when every field the mapping
dereferences is present and carries the record's data. -/
def completeHit (h : CodeResult) (r : SearchRecord) : Prop :=
  ∃ repo proj,
    h.repository = some repo ∧ repo.name = some r.repository ∧
    h.path = some r.path ∧ h.fileName = some r.fileName ∧
    h.project = some proj ∧ proj.name = some r.project

theorem processHit_record_complete {h : CodeResult} {r : SearchRecord}
    (hrec : processHit h = .record r) : completeHit h r := by
  obtain ⟨orepo, opath, ofile, oproj⟩ := h
  rcases orepo with _ | ⟨_ | rname⟩ <;>
    rcases opath with _ | p <;>
      rcases ofile with _ | f <;>
        rcases oproj with _ | ⟨_ | pname⟩ <;>
          simp only [processHit] at hrec <;>
            cases hrec
  exact ⟨⟨some rname⟩, ⟨some pname⟩, rfl, rfl, rfl, rfl, rfl, rfl⟩

theorem processHit_skipped {h : CodeResult}
    (hm : h.repository = none ∨ h.path = none ∨ h.fileName = none) :
    processHit h = .skipped := by
  obtain ⟨orepo, opath, ofile, oproj⟩ := h
  rcases orepo with _ | repo <;> rcases opath with _ | p <;> rcases ofile with _ | f <;>
    first
      | rfl
      | simp at hm

theorem processAll_mem {hits : List CodeResult} {recs : List SearchRecord}
    (h : processAll hits = .ok recs) :
    ∀ r ∈ recs, ∃ hit ∈ hits, processHit hit = .record r := by
  induction hits generalizing recs with
  | nil =>
    unfold processAll at h
    injection h with h
    subst h
    intro r hr
    cases hr
  | cons a t ih =>
    intro r hr
    unfold processAll at h
    cases hph : processHit a with
    | panic => rw [hph] at h; cases h
    | skipped =>
      rw [hph] at h
      obtain ⟨hit, hmem, hrec⟩ := ih h r hr
      exact ⟨hit, List.mem_cons_of_mem a hmem, hrec⟩
    | record r0 =>
      rw [hph] at h
      cases hpt : processAll t with
      | error e => rw [hpt] at h; cases h
      | ok rs =>
        rw [hpt] at h
        injection h with h
        subst h
        rcases List.mem_cons.mp hr with hr | hr
        · subst hr
          exact ⟨a, List.mem_cons_self a t, hph⟩
        · obtain ⟨hit, hmem, hrec⟩ := ih hpt r hr
          exact ⟨hit, List.mem_cons_of_mem a hmem, hrec⟩

/-! ### Claims -/

/-- C1: for every search call, a record appears in the returned sequence
only when it was built from a complete upstream hit (repository with name,
path, file name, project with name all present), and any hit missing
repository, path or file name is silently dropped by the loop guard rather
than causing an error. -/
theorem search_records_only_from_complete_hits
    (fetch : CodeSearchRequest → Except String (Option CodeSearchResponse))
    (project query repoName : String)
    (resp : CodeSearchResponse) (hits : List CodeResult)
    (recs : List SearchRecord)
    (hfetch : fetch (buildSearchRequest project query repoName) = .ok (some resp))
    (hres : resp.results = some hits)
    (hrun : searchRepository fetch project query repoName = .ok recs) :
    (∀ r ∈ recs, ∃ hit ∈ hits, completeHit hit r) ∧
    (∀ hit ∈ hits,
      hit.repository = none ∨ hit.path = none ∨ hit.fileName = none →
      processHit hit = .skipped) := by
  constructor
  · unfold searchRepository at hrun
    rw [hfetch] at hrun
    simp only at hrun
    rw [hres] at hrun
    simp only at hrun
    cases hpa : processAll hits with
    | error e => rw [hpa] at hrun; cases hrun
    | ok records =>
      rw [hpa] at hrun
      injection hrun with hrun
      subst hrun
      intro r hr
      obtain ⟨hit, hmem, hrec⟩ := processAll_mem hpa r hr
      exact ⟨hit, hmem, processHit_record_complete hrec⟩
  · intro hit _ hmiss
    exact processHit_skipped hmiss

/-- C1 witness: a concrete call with one complete hit and one hit missing
its path; the complete hit yields the only record, the other is skipped. -/
theorem search_records_only_from_complete_hits_witness :
    (∀ r ∈ [SearchRecord.mk "Svc" "/src/a.go" "a.go" "HCC"],
      ∃ hit ∈ [CodeResult.mk (some ⟨some "Svc"⟩) (some "/src/a.go") (some "a.go") (some ⟨some "HCC"⟩),
               CodeResult.mk (some ⟨some "Svc"⟩) none (some "b.go") (some ⟨some "HCC"⟩)],
        completeHit hit r) ∧
    (∀ hit ∈ [CodeResult.mk (some ⟨some "Svc"⟩) (some "/src/a.go") (some "a.go") (some ⟨some "HCC"⟩),
              CodeResult.mk (some ⟨some "Svc"⟩) none (some "b.go") (some ⟨some "HCC"⟩)],
      hit.repository = none ∨ hit.path = none ∨ hit.fileName = none →
      processHit hit = .skipped) :=
  search_records_only_from_complete_hits
    (fun _ => .ok (some ⟨some [⟨some ⟨some "Svc"⟩, some "/src/a.go", some "a.go", some ⟨some "HCC"⟩⟩,
                              ⟨some ⟨some "Svc"⟩, none, some "b.go", some ⟨some "HCC"⟩⟩]⟩))
    "HCC" "TODO" ""
    ⟨some [⟨some ⟨some "Svc"⟩, some "/src/a.go", some "a.go", some ⟨some "HCC"⟩⟩,
           ⟨some ⟨some "Svc"⟩, none, some "b.go", some ⟨some "HCC"⟩⟩]⟩
    [⟨some ⟨some "Svc"⟩, some "/src/a.go", some "a.go", some ⟨some "HCC"⟩⟩,
     ⟨some ⟨some "Svc"⟩, none, some "b.go", some ⟨some "HCC"⟩⟩]
    [⟨"Svc", "/src/a.go", "a.go", "HCC"⟩]
    rfl rfl rfl

/-- C2: read-path repository resolution scans the listing and returns the
first repository whose name matches case-insensitively (`List.find?` is
exactly first-match order); when the whole listing has no match the
operation fails with the not-found error and, for every possible `getItem`
oracle, no file fetch influences the result. Stated under the assumption
that every listed repository carries a name (a nil name would be a runtime
panic in the scan instead). -/
theorem read_resolution_first_fold_match_or_notfound
    (repos : List GitRepository) (project repoName path : String)
    (hnames : ∀ r ∈ repos, r.name ≠ none) :
    findRepo repos repoName =
      .ok (repos.find? (fun r => eqFold (r.name.getD "") repoName)) ∧
    (repos.find? (fun r => eqFold (r.name.getD "") repoName) = none →
      ∀ getItem, getFileContent (.ok repos) getItem project repoName path =
        .ret "" (some (.notFound ("repository not found: " ++ repoName)))) := by
  have hfind : findRepo repos repoName =
      .ok (repos.find? (fun r => eqFold (r.name.getD "") repoName)) := by
    induction repos with
    | nil => rfl
    | cons r t ih =>
      rcases hn : r.name with _ | n
      · exact absurd hn (hnames r (List.mem_cons_self r t))
      · have iht := ih (fun x hx => hnames x (List.mem_cons_of_mem r hx))
        cases hm : eqFold n repoName <;>
          simp [findRepo, List.find?, hn, hm, iht]
  refine ⟨hfind, fun hnone getItem => ?_⟩
  simp only [getFileContent, hfind, hnone]

/-- C2 witness: resolving "MyRepo" against a listing holding "other" and
"myrepo" finds "myrepo" (case-insensitively), and a listing with no match
yields the not-found error regardless of the fetch oracle. -/
theorem read_resolution_witness :
    findRepo [⟨some "other", some "id-0"⟩, ⟨some "myrepo", some "id-1"⟩] "MyRepo" =
      .ok (some ⟨some "myrepo", some "id-1"⟩) ∧
    (∀ getItem, getFileContent (.ok [⟨some "other", some "id-0"⟩]) getItem
        "HCC" "MyRepo" "/f.txt" =
      .ret "" (some (.notFound ("repository not found: " ++ "MyRepo")))) := by
  constructor
  · have h := read_resolution_first_fold_match_or_notfound
      [⟨some "other", some "id-0"⟩, ⟨some "myrepo", some "id-1"⟩]
      "HCC" "MyRepo" "/f.txt" (by decide)
    rw [h.1]
    rfl
  · have h := read_resolution_first_fold_match_or_notfound
      [⟨some "other", some "id-0"⟩] "HCC" "MyRepo" "/f.txt" (by decide)
    exact h.2 rfl

/-- C3: the read path consults no branch/ref parameter: (a) the fetch
arguments handed to the upstream `GetItem` call carry exactly the resolved
repository id, the configured project, the requested path and
`includeContent = true`, with the branch selector (`versionDescriptor`)
always absent; (b) the read handler is insensitive to a `branch` argument
in the tool-call argument map. -/
theorem read_fetch_args_no_branch :
    (∀ (repos : List GitRepository)
       (getItem : GetItemArgs → Except String GitItem)
       (project repoName path : String) (repo : GitRepository) (rID : String),
      findRepo repos repoName = .ok (some repo) → repo.id = some rID →
      getFileContent (.ok repos) getItem project repoName path =
        itemPhase (getItem
          { repositoryId := rID
            project := project
            path := path
            includeContent := true
            versionDescriptor := none })) ∧
    (∀ (listRepos : Except String (List GitRepository))
       (getItem : GetItemArgs → Except String GitItem)
       (project : String) (v : GoValue) (args : List (String × GoValue)),
      readHandler listRepos getItem project (("branch", v) :: args) =
        readHandler listRepos getItem project args) := by
  constructor
  · intro repos getItem project repoName path repo rID hfind hid
    simp only [getFileContent, hfind, hid]
  · intro listRepos getItem project v args
    rfl

/-- C3 witness: a concrete read against a one-repository listing reaches
the fetch with `versionDescriptor = none`, and prepending a `branch`
argument leaves a concrete handler call unchanged. -/
theorem read_fetch_args_no_branch_witness :
    getFileContent (.ok [⟨some "svc", some "abc"⟩])
        (fun a => .ok ⟨some a.repositoryId⟩) "HCC" "Svc" "/f.txt" =
      itemPhase ((fun (a : GetItemArgs) => Except.ok (GitItem.mk (some a.repositoryId)))
        { repositoryId := "abc"
          project := "HCC"
          path := "/f.txt"
          includeContent := true
          versionDescriptor := none }) ∧
    readHandler (.ok []) (fun _ => .ok ⟨none⟩) "HCC"
        [("branch", GoValue.str "main"), ("repository", GoValue.str "Svc"),
         ("path", GoValue.str "/f.txt")] =
      readHandler (.ok []) (fun _ => .ok ⟨none⟩) "HCC"
        [("repository", GoValue.str "Svc"), ("path", GoValue.str "/f.txt")] :=
  ⟨read_fetch_args_no_branch.1 [⟨some "svc", some "abc"⟩]
      (fun a => .ok ⟨some a.repositoryId⟩) "HCC" "Svc" "/f.txt"
      ⟨some "svc", some "abc"⟩ "abc" rfl rfl,
   read_fetch_args_no_branch.2 (.ok []) (fun _ => .ok ⟨none⟩) "HCC"
      (GoValue.str "main")
      [("repository", GoValue.str "Svc"), ("path", GoValue.str "/f.txt")]⟩

/-- C4: required-argument validation happens before any upstream call: a
search call whose `query` is absent or not a string, and a read call whose
`repository` or `path` is absent or not a string, each yield the
validation error — for every possible upstream oracle, so no upstream
request can have been issued. -/
theorem dispatch_validates_before_upstream
    (project : String) (args : List (String × GoValue)) :
    (asString (argLookup args "query") = none →
      ∀ fetch, searchHandler fetch project args = .err "query must be a string") ∧
    (asString (argLookup args "repository") = none →
      ∀ listRepos getItem, readHandler listRepos getItem project args =
        .err "repository must be a string") ∧
    (∀ repo, asString (argLookup args "repository") = some repo →
      asString (argLookup args "path") = none →
      ∀ listRepos getItem, readHandler listRepos getItem project args =
        .err "path must be a string") := by
  refine ⟨fun hq fetch => ?_, fun hr listRepos getItem => ?_,
    fun repo hr hp listRepos getItem => ?_⟩
  · simp only [searchHandler, hq]
  · simp only [readHandler, hr]
  · simp only [readHandler, hr, hp]

/-- C4 witness: a non-string `query`, a read call with no `repository`
argument, and a read call with a boolean `path`, each rejected before any
upstream activity. -/
theorem dispatch_validates_before_upstream_witness :
    (∀ fetch, searchHandler fetch "HCC" [("query", GoValue.num 3)] =
      .err "query must be a string") ∧
    (∀ listRepos getItem, readHandler listRepos getItem "HCC"
        [("path", GoValue.str "/f.txt")] = .err "repository must be a string") ∧
    (∀ listRepos getItem, readHandler listRepos getItem "HCC"
        [("repository", GoValue.str "Svc"), ("path", GoValue.boolean true)] =
      .err "path must be a string") :=
  ⟨(dispatch_validates_before_upstream "HCC" [("query", GoValue.num 3)]).1 rfl,
   (dispatch_validates_before_upstream "HCC" [("path", GoValue.str "/f.txt")]).2.1 rfl,
   (dispatch_validates_before_upstream "HCC"
      [("repository", GoValue.str "Svc"), ("path", GoValue.boolean true)]).2.2
     "Svc" rfl rfl⟩

/-- C5: the constructed upstream search request always carries the
configured project filter, carries a repository filter exactly when the
repo argument is non-empty, caps the results at 1000, and asks for
snippets. -/
theorem search_request_filters_cap_snippet (project query repoName : String) :
    (buildSearchRequest project query repoName).filters.lookup "Project" =
      some [project] ∧
    (buildSearchRequest project query repoName).filters.lookup "Repository" =
      (if repoName = "" then none else some [repoName]) ∧
    (buildSearchRequest project query repoName).top = 1000 ∧
    (buildSearchRequest project query repoName).includeSnippet = true := by
  unfold buildSearchRequest
  by_cases h : repoName = "" <;> simp [h, List.lookup]

/-- C6: a search call whose upstream response is nil, has a nil result
slice, or has an empty result slice, succeeds with the empty record list,
which marshals to the empty JSON array. -/
theorem search_empty_response_ok_empty
    (fetch : CodeSearchRequest → Except String (Option CodeSearchResponse))
    (project query repoName : String)
    (hempty : fetch (buildSearchRequest project query repoName) = .ok none ∨
      ∃ resp, fetch (buildSearchRequest project query repoName) = .ok (some resp) ∧
        (resp.results = none ∨ resp.results = some [])) :
    searchRepository fetch project query repoName = .ok [] ∧
    encodeSearchOutcome (SearchOutcome.ok []) = .ok "[]" := by
  constructor
  · rcases hempty with h | ⟨resp, h, hres⟩
    · simp only [searchRepository, h]
    · rcases hres with hres | hres <;> simp [searchRepository, h, hres, processAll]
  · rfl

/-- C6 witness: a concrete call whose upstream returns a nil response
pointer yields the empty record list and the `[]` encoding. -/
theorem search_empty_response_ok_empty_witness :
    searchRepository (fun _ => .ok none) "HCC" "TODO" "" = .ok [] ∧
    encodeSearchOutcome (SearchOutcome.ok []) = .ok "[]" :=
  search_empty_response_ok_empty (fun _ => .ok none) "HCC" "TODO" "" (Or.inl rfl)

/-- C7: a read call whose upstream item is fetched successfully but
carries no content returns the empty string with no error. -/
theorem read_nil_content_empty_success
    (repos : List GitRepository) (getItem : GetItemArgs → Except String GitItem)
    (project repoName path : String) (repo : GitRepository) (rID : String)
    (hfind : findRepo repos repoName = .ok (some repo))
    (hid : repo.id = some rID)
    (hitem : getItem
      { repositoryId := rID
        project := project
        path := path
        includeContent := true
        versionDescriptor := none } = .ok ⟨none⟩) :
    getFileContent (.ok repos) getItem project repoName path = .ret "" none := by
  simp only [getFileContent, hfind, hid, hitem, itemPhase]

/-- C7 witness: a concrete read whose fetched item has nil content
succeeds with the empty string. -/
theorem read_nil_content_empty_success_witness :
    getFileContent (.ok [⟨some "svc", some "abc"⟩]) (fun _ => .ok ⟨none⟩)
      "HCC" "Svc" "/f.txt" = .ret "" none :=
  read_nil_content_empty_success [⟨some "svc", some "abc"⟩] (fun _ => .ok ⟨none⟩)
    "HCC" "Svc" "/f.txt" ⟨some "svc", some "abc"⟩ "abc" rfl rfl rfl

/-- C8: the optional `repo` argument of a search call defaults to the
empty string when absent or of a non-string type, with no error: the
handler proceeds into the search with `repoName = ""`, and such a request
carries no repository filter. -/
theorem search_repo_optional_defaults_empty
    (fetch : CodeSearchRequest → Except String (Option CodeSearchResponse))
    (project : String) (args : List (String × GoValue)) (query : String)
    (hq : asString (argLookup args "query") = some query)
    (hr : asString (argLookup args "repo") = none) :
    searchHandler fetch project args =
      encodeSearchOutcome (searchRepository fetch project query "") ∧
    (buildSearchRequest project query "").filters.lookup "Repository" = none := by
  constructor
  · simp only [searchHandler, hq, hr, Option.getD_none]
  · simp [buildSearchRequest, List.lookup]

/-- C8 witness: a concrete search call with a numeric `repo` argument
proceeds with the empty repository name and builds a request with no
repository filter. -/
theorem search_repo_optional_defaults_empty_witness :
    searchHandler (fun _ => .ok none) "HCC"
        [("query", GoValue.str "TODO"), ("repo", GoValue.num 7)] =
      encodeSearchOutcome (searchRepository (fun _ => .ok none) "HCC" "TODO" "") ∧
    (buildSearchRequest "HCC" "TODO" "").filters.lookup "Repository" = none :=
  search_repo_optional_defaults_empty (fun _ => .ok none) "HCC"
    [("query", GoValue.str "TODO"), ("repo", GoValue.num 7)] "TODO" rfl rfl

/-- C9: the completeness guard of the search result loop checks only the
repository, path and file-name pointers, so a hit passing the guard whose
repository name, project, or project name is nil reaches the unguarded
dereference and panics. -/
theorem search_unguarded_project_deref
    (h : CodeResult) (repo : RepoRef) (p f : String)
    (hrepo : h.repository = some repo) (hp : h.path = some p)
    (hf : h.fileName = some f)
    (hnil : repo.name = none ∨ h.project = none ∨
      ∃ proj, h.project = some proj ∧ proj.name = none) :
    processHit h = .panic := by
  obtain ⟨orepo, opath, ofile, oproj⟩ := h
  simp only at hrepo hp hf
  subst hrepo; subst hp; subst hf
  simp only [processHit]
  rcases hnil with hn | hn | ⟨proj, hn, hpn⟩
  · rw [hn]
  · simp only at hn
    subst hn
    cases repo.name <;> rfl
  · simp only at hn
    subst hn
    cases hrn : repo.name <;> simp [hrn, hpn]

/-- C9 witness: a concrete hit with repository, path and file name present
but a nil project panics in the mapping. -/
theorem search_unguarded_project_deref_witness :
    processHit ⟨some ⟨some "Svc"⟩, some "/src/a.go", some "a.go", none⟩ = .panic :=
  search_unguarded_project_deref
    ⟨some ⟨some "Svc"⟩, some "/src/a.go", some "a.go", none⟩
    ⟨some "Svc"⟩ "/src/a.go" "a.go" rfl rfl rfl (Or.inr (Or.inl rfl))

/-- C10: whenever the file-read operation returns with a non-nil error —
listing failure, repository not found, or upstream fetch failure — the
content value it returns alongside is the empty string. -/
theorem read_error_implies_empty_content
    (listRepos : Except String (List GitRepository))
    (getItem : GetItemArgs → Except String GitItem)
    (project repoName path : String) (c : String) (e : ReadError)
    (hret : getFileContent listRepos getItem project repoName path =
      .ret c (some e)) :
    c = "" := by
  unfold getFileContent itemPhase at hret
  repeat' split at hret
  all_goals cases hret
  all_goals rfl

/-- C10 witness: a concrete failing listing returns the empty string with
the error. -/
theorem read_error_implies_empty_content_witness :
    getFileContent (Except.error "boom") (fun _ => .ok ⟨none⟩) "HCC" "Svc" "/f.txt" =
      .ret "" (some (.upstream "boom")) ∧ ("" : String) = "" :=
  ⟨rfl, read_error_implies_empty_content (Except.error "boom")
    (fun _ => .ok ⟨none⟩) "HCC" "Svc" "/f.txt" "" (.upstream "boom") rfl⟩

end AzDevOpsMcp
